import Mathlib

/-!
Verification development for `modchecker.py` (Minecraft mod version and slug
checker/updater).  The Python source is shallowly embedded: configuration
files are lists of lines, each line a list of characters; the Modrinth HTTP
client, the interactive prompt and the terminal are modelled as oracles in an
explicit environment record, and every file write is explicit state passing.
-/

namespace ModChecker

/-- A line of a configuration file, as produced by Python's `readlines`
(the trailing newline character, when present, is part of the line). -/
abbrev Line := List Char

/-- Characters of a Lean string literal, used to write concrete text. -/
def strOf (s : String) : Line := s.data

/-- Python `str.strip()` whitespace set (space, tab, newline, carriage
return, vertical tab, form feed). -/
def isPyWS (c : Char) : Bool :=
  c = ' ' || c = '\t' || c = '\n' || c = '\r' || c = '\x0b' || c = '\x0c'

/-- Python `line.strip()`: remove leading and trailing whitespace. -/
def pyStrip (l : Line) : Line :=
  ((l.dropWhile isPyWS).reverse.dropWhile isPyWS).reverse

/-- Index of the first occurrence of `pat` as a contiguous substring,
Python's `s.index(pat)` (the source only calls it when `pat` occurs). -/
def subIndex (pat : Line) : Line → Option Nat
  | [] => if pat = [] then some 0 else none
  | c :: cs =>
    if pat.isPrefixOf (c :: cs) then some 0
    else (subIndex pat cs).map (· + 1)

/-- Python string comparison `a < b`: lexicographic by code point, a strict
prefix is smaller. -/
def strLt : Line → Line → Bool
  | [], [] => false
  | [], _ :: _ => true
  | _ :: _, [] => false
  | a :: as, b :: bs =>
    if a.toNat < b.toNat then true
    else if b.toNat < a.toNat then false
    else strLt as bs

/-! ### `TomlHandler.update_version` — the in-place version patch -/

/-- The `[[mods]]` section header, stripped. -/
def modsHeader : Line := strOf "[[mods]]"

/-- The stripped line `id = "<modId>"` the scan anchors on (exact equality,
source line 156). -/
def idAssign (modId : Line) : Line :=
  strOf "id = \"" ++ modId ++ strOf "\""

/-- Stripped line starts a TOML array-of-tables section (`startswith("[[")`,
source line 175; a single-bracket `[table]` header does not count). -/
def isSectionStart (s : Line) : Bool := (strOf "[[").isPrefixOf s

/-- Stripped line carries a version assignment
(`startswith("version = ")`, source line 162). -/
def isVersionAssign (s : Line) : Bool := (strOf "version = ").isPrefixOf s

/-- The outer scan of `update_version` (source lines 146–177): walk the
lines with an `in_mod_section` flag, set at each `[[mods]]` header, cleared
at any other `[[..` header past line 0, and return the index of the first
line whose stripped text equals `id = "<modId>"` while the flag is set. -/
def findAnchorAux (modId : Line) : List Line → Nat → Bool → Option Nat
  | [], _, _ => none
  | l :: rest, i, inSec =>
    let s := pyStrip l
    if s = modsHeader then findAnchorAux modId rest (i + 1) true
    else if inSec ∧ s = idAssign modId then some i
    else if inSec ∧ 0 < i ∧ isSectionStart s = true ∧ s ≠ modsHeader then
      findAnchorAux modId rest (i + 1) false
    else findAnchorAux modId rest (i + 1) inSec

def findAnchor (lines : List Line) (modId : Line) : Option Nat :=
  findAnchorAux modId lines 0 false

/-- The inner scan (source lines 160–169): `for j in range(i + 1,
min(i + 5, len(lines)))`, stopping at the first line whose stripped text
starts with `version = `. -/
def findVersionIdx (lines : List Line) (i : Nat) : Option Nat :=
  (List.range' (i + 1) (min (i + 5) lines.length - (i + 1))).find?
    (fun j => isVersionAssign (pyStrip (lines.getD j [])))

/-- The replacement line (source lines 165–166): keep the text up to the
first occurrence of `version` — the original indentation — and rebuild the
rest as `version = "<newVersion>"` plus a newline, so anything that
followed the old value on that line is discarded. -/
def mkVersionLine (l : Line) (newVersion : Line) : Line :=
  l.take ((subIndex (strOf "version") l).getD 0)
    ++ strOf "version = \"" ++ newVersion ++ strOf "\"" ++ ['\n']

/-- `TomlHandler.update_version` (source lines 134–187) as a pure function
on the file's lines: `some` of the new lines when a version line was
patched, `none` when no anchored version line was found (the source then
returns `False` without writing).  The outer loop breaks at the first
anchor whether or not its window contains a version line. -/
def update_version (lines : List Line) (modId newVersion : Line) :
    Option (List Line) :=
  match findAnchor lines modId with
  | none => none
  | some i =>
    match findVersionIdx lines i with
    | none => none
    | some j => some (lines.set j (mkVersionLine (lines.getD j []) newVersion))

/-- `update_version` at the file level: the source writes the mutated lines
back only when `updated` is set (source lines 182–187), so failure leaves
the stored file exactly as it was.  (An OS-level write error is I/O outside
the embedding; the returned flag is the function's boolean result.) -/
def update_version_file (file : List Line) (modId newVersion : Line) :
    Bool × List Line :=
  match update_version file modId newVersion with
  | some l2 => (true, l2)
  | none => (false, file)

/-! ### `ModrinthClient` — version records, filtering and sorting -/

/-- A Modrinth version record, with the JSON fields the script reads.
Absent JSON fields are modelled by their Python `dict.get` defaults
(`""` for `date_published`, `[]` for `loaders` and `game_versions`). -/
structure Version where
  id : Line
  version_number : Line
  date_published : Line
  loaders : List Line
  game_versions : List Line
  changelog : Line
deriving DecidableEq

/-- Python `str.lower()` restricted to ASCII, which covers loader names. -/
def lowerLine (l : Line) : Line := l.map Char.toLower

/-- `ModrinthClient._filter_versions` (source lines 243–253): keep a version
when `mod_loader in [loader.lower() for loader in v.get("loaders", [])]`
— note the target `mod_loader` itself is NOT lower-cased here — and
`mc_version in v.get("game_versions", [])` by exact string equality. -/
def filter_versions (versions : List Version) (mc_version mod_loader : Line) :
    List Version :=
  versions.filter (fun v =>
    decide (mod_loader ∈ v.loaders.map lowerLine ∧ mc_version ∈ v.game_versions))

/-- One insertion step of the stable descending sort: `v` — which occurred
before every element of `l` in the input — is placed before the first
element whose `date_published` is strictly smaller, and after every
element with a greater-or-equal date. -/
def insertByDate (v : Version) : List Version → List Version
  | [] => [v]
  | w :: ws =>
    if strLt v.date_published w.date_published then w :: insertByDate v ws
    else v :: w :: ws

/-- `filtered_versions.sort(key=lambda x: x.get("date_published", ""),
reverse=True)` (source line 237): a stable descending sort on the
`date_published` string.  Python's sort is stable, and a stable sort into a
given total preorder has a unique result, so this stable insertion sort
computes the same list. -/
def sortByDateDesc : List Version → List Version
  | [] => []
  | v :: vs => insertByDate v (sortByDateDesc vs)

/-- A project record as used by the script: `id`, `title`, and the optional
`slug` (`"slug" in mod_info` is modelled by `Option`). -/
structure ModInfo where
  id : Line
  title : Line
  slug : Option Line
deriving DecidableEq

/-- Observable per-mod report lines the claims talk about: the two stderr
error messages and the three status lines printed by
`display_mod_status`. -/
inductive Event where
  | errorFetchProject : Line → Event
  | errorFetchVersions : Line → Event
  | statusNoCompatible : Line → Event
  | statusUpToDate : Line → Event
  | statusUpdateAvailable : Line → Event
deriving DecidableEq

/-- External collaborators of one run: the Modrinth API (deterministic
within a run; `none` is a `requests.RequestException`), the blocking
yes/no prompt (by mod id), and the run's fixed target Minecraft version
and loader (the loader is lower-cased once in `main`, line 585, before it
reaches the manager). -/
structure Env where
  getModInfo : Line → Option ModInfo
  fetchVersions : Line → Option (List Version)
  askUpdate : Line → Bool
  mc_version : Line
  mod_loader : Line

/-- `ModrinthClient.get_mod_versions` (source lines 226–241): on a fetch
error print to stderr and return the empty list; otherwise filter and sort
newest-first. -/
def get_mod_versions (env : Env) (modId : Line) : List Event × List Version :=
  match env.fetchVersions modId with
  | none => ([Event.errorFetchVersions modId], [])
  | some versions =>
    ([], sortByDateDesc (filter_versions versions env.mc_version env.mod_loader))

/-! ### `ModManager` — severity colouring, updating, reconciliation -/

/-- The three `colorama` colours `get_version_color` can return:
red = major, yellow = minor, green = patch. -/
inductive Color where
  | red
  | yellow
  | green
deriving DecidableEq

/-- `ver.split("+")[0].split("-")[0]` (source lines 283–284): the text
before the first `+`, then the text before the first `-` of that. -/
def stripSuffixes (s : Line) : Line :=
  (s.takeWhile (fun c => decide (c ≠ '+'))).takeWhile (fun c => decide (c ≠ '-'))

/-- Python `s.split(".")`: split on every dot, keeping empty segments;
`"".split(".") == [""]`. -/
def splitDot : Line → List Line
  | [] => [[]]
  | c :: cs =>
    if c = '.' then [] :: splitDot cs
    else
      match splitDot cs with
      | [] => [[c]]
      | seg :: rest => (c :: seg) :: rest

/-- The dot-separated components compared by `get_version_color`. -/
def versionParts (s : Line) : List Line := splitDot (stripSuffixes s)

/-- Colour for the index of the first differing component
(source lines 290–295). -/
def classifyIdx (i : Nat) : Color :=
  if i = 0 then Color.red else if i = 1 then Color.yellow else Color.green

/-- The pairwise walk of source lines 288–295: over
`range(min(len, len))`, return at the first index whose components differ,
else fall through to green.  (The surrounding `try/except` of the source
can never fire: the loop performs only string operations.) -/
def walkParts : List Line → List Line → Nat → Color
  | c :: cs, l :: ls, i =>
    if l ≠ c then classifyIdx i else walkParts cs ls (i + 1)
  | _, _, _ => Color.green

/-- `ModManager.get_version_color` (source lines 280–298). -/
def get_version_color (current_ver latest_ver : Line) : Color :=
  walkParts (versionParts current_ver) (versionParts latest_ver) 0

/-- `ModManager._perform_update` (source lines 440–468) with the prompt
answer and the second `get_mod_info` call supplied by the environment:
on a confirmed update the patch is attempted under the freshly fetched
SLUG of the project, not under the identifier the config declared. -/
def perform_update (env : Env) (modId cvid : Line) (latest : Version)
    (file : List Line) : Nat × List Line :=
  if env.askUpdate modId then
    match env.getModInfo modId with
    | none => (0, file)
    | some info =>
      match info.slug with
      | none => (0, file)
      | some slug =>
        match update_version file slug latest.id with
        | some file2 => (1, file2)
        | none => (0, file)
  else (0, file)

/-- `ModManager._handle_update_needed` (source lines 407–438): the colour
and changelog are display only; in update mode defer to
`_perform_update`, otherwise report only. -/
def handle_update_needed (env : Env) (modId cvid : Line) (latest : Version)
    (update_mode : Bool) (file : List Line) : Nat × List Line :=
  if update_mode then perform_update env modId cvid latest file else (0, file)

/-- `ModManager.display_mod_status` (source lines 340–384), with the status
prints recorded as events and the config file threaded through.  Note the
mod id used from here on is `mod_info["id"]` — the id of the FETCHED
project record (source line 348). -/
def display_mod_status (env : Env) (info : ModInfo) (versions : List Version)
    (cvid : Line) (update_mode : Bool) (file : List Line) :
    List Event × Bool × Nat × List Line :=
  match versions with
  | [] => ([Event.statusNoCompatible info.id], false, 0, file)
  | latest :: rest =>
    let current := (latest :: rest).find? (fun v => decide (v.id = cvid))
    let needs_update := current.isNone || decide (latest.id ≠ cvid)
    if needs_update then
      let r := handle_update_needed env info.id cvid latest update_mode file
      ([Event.statusUpdateAvailable info.id], true, r.1, r.2)
    else
      ([Event.statusUpToDate info.id], false, 0, file)

/-- One `[[mods]]` entry of the parsed configuration; each field is
`Option` because the source reads them with `dict.get`. -/
structure DeclaredMod where
  type : Option Line
  id : Option Line
  version : Option Line
deriving DecidableEq

/-- Python truthiness of an optional string: `not x` skips both a missing
field and an empty one. -/
def truthy : Option Line → Bool
  | none => false
  | some l => ! l.isEmpty

/-- `if specific_mods and mod_id not in specific_mods: continue`
(source line 527): an empty list is falsy, so it never skips anything. -/
def subsetSkip (sel : Option (List Line)) (modId : Line) : Bool :=
  match sel with
  | none => false
  | some l => ! l.isEmpty && ! decide (modId ∈ l)

/-- `ModManager.check_mods` (source lines 509–544): fold over the declared
mods, skipping non-modrinth entries, entries without a truthy id or
version, and — when a subset was requested — ids outside it; fetch the
project (error → report and skip), fetch-filter-sort the versions, then
display/update.  Returns the accumulated events, the ids needing an
update, the number of updates performed, and the final file. -/
def check_mods (env : Env) (update_mode : Bool) (sel : Option (List Line)) :
    List DeclaredMod → List Line → List Event × List Line × Nat × List Line
  | [], file => ([], [], 0, file)
  | m :: rest, file =>
    if m.type ≠ some (strOf "modrinth") then
      check_mods env update_mode sel rest file
    else if ! truthy m.id || ! truthy m.version then
      check_mods env update_mode sel rest file
    else
      let modId := m.id.getD []
      let cvid := m.version.getD []
      if subsetSkip sel modId then check_mods env update_mode sel rest file
      else
        match env.getModInfo modId with
        | none =>
          let r := check_mods env update_mode sel rest file
          (Event.errorFetchProject modId :: r.1, r.2)
        | some info =>
          let fv := get_mod_versions env modId
          let d := display_mod_status env info fv.2 cvid update_mode file
          let r := check_mods env update_mode sel rest d.2.2.2
          (fv.1 ++ d.1 ++ r.1, (if d.2.1 then [modId] else []) ++ r.2.1,
            d.2.2.1 + r.2.2.1, r.2.2.2)

/-! ### Concrete fixtures used by counterexamples and witnesses -/

/-- A well-formed single-entry configuration file. -/
def exFileGood : List Line :=
  [strOf "[[mods]]\n", strOf "  id = \"a\"\n", strOf "  version = \"x\"\n"]

/-- Two `[[mods]]` blocks; the first (`id = "a"`) has no version field, the
second (`id = "b"`) opens within four lines of the first block's id line. -/
def exFileCross : List Line :=
  [strOf "[[mods]]\n", strOf "id = \"a\"\n", strOf "[[mods]]\n",
    strOf "id = \"b\"\n", strOf "version = \"x\"\n"]

/-- One block whose `version` field sits five lines after its id line,
beyond the source's four-line look-ahead window. -/
def exFileFar : List Line :=
  [strOf "[[mods]]\n", strOf "id = \"a\"\n", strOf "o1 = \"1\"\n",
    strOf "o2 = \"2\"\n", strOf "o3 = \"3\"\n", strOf "o4 = \"4\"\n",
    strOf "version = \"x\"\n"]

/-- A version line carrying a trailing comment after the quoted value. -/
def exFileComment : List Line :=
  [strOf "[[mods]]\n", strOf "id = \"a\"\n",
    strOf "version = \"x\"  # keep me\n"]

/-- A registry version: id `AAA`, published first. -/
def exVerA : Version :=
  ⟨strOf "AAA", strOf "1.0.0", strOf "2024-01-01T00:00:00Z",
    [strOf "fabric"], [strOf "1.20.1"], strOf ""⟩

/-- A registry version: id `BBB`, published later. -/
def exVerB : Version :=
  ⟨strOf "BBB", strOf "1.1.0", strOf "2024-02-01T00:00:00Z",
    [strOf "fabric"], [strOf "1.20.1"], strOf ""⟩

/-- A version whose loaders are capitalised on the registry side. -/
def exVerCase : Version :=
  ⟨strOf "CCC", strOf "1.0.0", strOf "2024-01-01T00:00:00Z",
    [strOf "Fabric"], [strOf "1.20.1"], strOf ""⟩

/-- Declared mod `m1`, pinned to version id `AAA`. -/
def exMod1 : DeclaredMod :=
  ⟨some (strOf "modrinth"), some (strOf "m1"), some (strOf "AAA")⟩

/-- Declared mod `m2`, pinned to version id `AAA`. -/
def exMod2 : DeclaredMod :=
  ⟨some (strOf "modrinth"), some (strOf "m2"), some (strOf "AAA")⟩

/-- Environment for the C1 counterexample: the project declared as `abc`
resolves to a record whose slug is `fabric-api`, every prompt is answered
yes, and the version list is never needed. -/
def exEnvSlug : Env :=
  ⟨fun i => some ⟨i, strOf "Abc Mod", some (strOf "fabric-api")⟩,
    fun _ => none, fun _ => true, strOf "1.20.1", strOf "fabric"⟩

/-- Configuration file declaring the mod under `abc` (not its slug). -/
def exFileAbc : List Line :=
  [strOf "[[mods]]\n", strOf "id = \"abc\"\n", strOf "version = \"AAA\"\n"]

/-- Environment for C8: project info always resolves (slug = id), the
version-list fetch fails for `m1` and succeeds for `m2`, prompts say yes. -/
def exEnvErr : Env :=
  ⟨fun i => some ⟨i, strOf "T", some i⟩,
    fun i => if i = strOf "m2" then some [exVerA, exVerB] else none,
    fun _ => true, strOf "1.20.1", strOf "fabric"⟩

/-- Configuration file holding only the `m2` block. -/
def exFileM2 : List Line :=
  [strOf "[[mods]]\n", strOf "id = \"m2\"\n", strOf "version = \"AAA\"\n"]

/-! ### Helper lemmas: the Python string order -/

theorem strLt_irrefl (s : Line) : strLt s s = false := by
  induction s with
  | nil => rfl
  | cons a as ih => simp [strLt, ih]

theorem strLt_asymm : ∀ {a b : Line}, strLt a b = true → strLt b a = false
  | [], [], h => by simp [strLt] at h
  | [], _ :: _, _ => rfl
  | _ :: _, [], h => by simp [strLt] at h
  | a :: as, b :: bs, h => by
    simp only [strLt] at h ⊢
    split at h
    · simp [Nat.lt_asymm ‹a.toNat < b.toNat›, Nat.lt_irrefl]
      intro hba
      omega
    · split at h
      · exact absurd h (by simp)
      · have hab : ¬ a.toNat < b.toNat := ‹¬ a.toNat < b.toNat›
        have hba : ¬ b.toNat < a.toNat := ‹¬ b.toNat < a.toNat›
        simp [hba, hab, strLt_asymm h]

theorem strLt_negtrans :
    ∀ {a b c : Line}, strLt a c = true → strLt a b = true ∨ strLt b c = true
  | [], _, [], h => by simp [strLt] at h
  | _ :: _, _, [], h => by simp [strLt] at h
  | [], [], _ :: _, _ => Or.inr (by simp [strLt])
  | [], _ :: _, _ :: _, _ => Or.inl (by simp [strLt])
  | _ :: _, [], _ :: _, _ => Or.inr (by simp [strLt])
  | a :: as, b :: bs, c :: cs, h => by
    simp only [strLt] at h ⊢
    by_cases hab : a.toNat < b.toNat
    · simp [hab]
    · by_cases hbc : b.toNat < c.toNat
      · simp [hbc]
      · split at h
        · omega
        · split at h
          · exact absurd h (by simp)
          · have hac : ¬ a.toNat < c.toNat := ‹¬ a.toNat < c.toNat›
            have hca : ¬ c.toNat < a.toNat := ‹¬ c.toNat < a.toNat›
            have hba : ¬ b.toNat < a.toNat := by omega
            have hcb : ¬ c.toNat < b.toNat := by omega
            rcases strLt_negtrans (b := bs) h with h' | h'
            · exact Or.inl (by simp [hab, hba, h'])
            · exact Or.inr (by simp [hbc, hcb, h'])

/-! ### Helper lemmas: the patch scan -/

theorem find?_range'_eq_some {p : Nat → Bool} :
    ∀ {n s j : Nat}, (List.range' s n).find? p = some j →
      s ≤ j ∧ j < s + n ∧ p j = true ∧ ∀ k, s ≤ k → k < j → p k = false := by
  intro n
  induction n with
  | zero => intro s j h; simp [List.range'] at h
  | succ n ih =>
    intro s j h
    rw [List.range'_succ, List.find?_cons] at h
    cases hp : p s with
    | true =>
      rw [hp] at h
      simp only [Option.some.injEq] at h
      subst h
      exact ⟨Nat.le_refl _, by omega, hp, fun k h1 h2 => by omega⟩
    | false =>
      rw [hp] at h
      rcases ih h with ⟨h1, h2, h3, h4⟩
      refine ⟨by omega, by omega, h3, fun k hk1 hk2 => ?_⟩
      rcases Nat.eq_or_lt_of_le hk1 with rfl | hk1'
      · exact hp
      · exact h4 k hk1' hk2

/-- Everything `update_version` guarantees on success: an anchor index `i`
found by the section-scoped scan, a patched index `j` strictly after the
anchor and within the four-line window, a version assignment at `j` and at
no earlier index of the window, and the output equal to the input with
line `j` rebuilt. -/
theorem update_version_spec {lines : List Line} {modId nv : Line}
    {out : List Line} (h : update_version lines modId nv = some out) :
    ∃ i j, findAnchor lines modId = some i ∧ i + 1 ≤ j ∧
      j < min (i + 5) lines.length ∧
      isVersionAssign (pyStrip (lines.getD j [])) = true ∧
      (∀ k, i + 1 ≤ k → k < j →
        isVersionAssign (pyStrip (lines.getD k [])) = false) ∧
      out = lines.set j (mkVersionLine (lines.getD j []) nv) := by
  unfold update_version at h
  cases ha : findAnchor lines modId with
  | none => rw [ha] at h; exact absurd h (by simp)
  | some i =>
    rw [ha] at h
    dsimp only at h
    cases hv : findVersionIdx lines i with
    | none => rw [hv] at h; exact absurd h (by simp)
    | some j =>
      rw [hv] at h
      simp only [Option.some.injEq] at h
      unfold findVersionIdx at hv
      rcases find?_range'_eq_some hv with ⟨h1, h2, h3, h4⟩
      exact ⟨i, j, rfl, h1, by omega, h3, h4, h.symm⟩

theorem getD_set_ne {l : List Line} {j k : Nat} {v : Line} (h : j ≠ k) :
    (l.set j v).getD k [] = l.getD k [] := by
  rw [List.getD_eq_getElem?_getD, List.getD_eq_getElem?_getD,
    List.getElem?_set_ne h]

/-! ### Helper lemmas: the version sort -/

theorem insertByDate_perm (v : Version) :
    ∀ l : List Version, (insertByDate v l).Perm (v :: l)
  | [] => List.Perm.refl _
  | w :: ws => by
    by_cases h : strLt v.date_published w.date_published = true
    · simp only [insertByDate, h, if_pos]
      exact ((insertByDate_perm v ws).cons w).trans (List.Perm.swap v w ws)
    · simp only [insertByDate, h, if_neg, not_false_eq_true]
      exact List.Perm.refl _

theorem sortByDateDesc_perm : ∀ l : List Version, (sortByDateDesc l).Perm l
  | [] => List.Perm.refl _
  | v :: vs =>
    (insertByDate_perm v (sortByDateDesc vs)).trans
      ((sortByDateDesc_perm vs).cons v)

theorem pairwise_insertByDate {v : Version} :
    ∀ {l : List Version},
      l.Pairwise (fun a b => strLt a.date_published b.date_published =
        false) →
      (insertByDate v l).Pairwise
        (fun a b => strLt a.date_published b.date_published = false)
  | [], _ => by simp [insertByDate]
  | w :: ws, h => by
    rcases List.pairwise_cons.mp h with ⟨hw, hws⟩
    by_cases hvw : strLt v.date_published w.date_published = true
    · simp only [insertByDate, hvw, if_pos]
      refine List.pairwise_cons.mpr ⟨?_, pairwise_insertByDate hws⟩
      intro x hx
      rcases List.mem_cons.mp ((insertByDate_perm v ws).mem_iff.mp hx) with
        rfl | hx'
      · exact strLt_asymm hvw
      · exact hw x hx'
    · have hvw' : strLt v.date_published w.date_published = false :=
        Bool.eq_false_iff.mpr hvw
      simp only [insertByDate, hvw, if_neg, not_false_eq_true]
      refine List.pairwise_cons.mpr ⟨?_, h⟩
      intro x hx
      rcases List.mem_cons.mp hx with rfl | hx'
      · exact hvw'
      · have hwx := hw x hx'
        cases hb : strLt v.date_published x.date_published with
        | false => rfl
        | true =>
          rcases strLt_negtrans (b := w.date_published) hb with h1 | h1
          · rw [hvw'] at h1
            exact absurd h1 (by simp)
          · rw [hwx] at h1
            exact absurd h1 (by simp)

theorem sortByDateDesc_sorted :
    ∀ l : List Version,
      (sortByDateDesc l).Pairwise
        (fun a b => strLt a.date_published b.date_published = false)
  | [] => List.Pairwise.nil
  | v :: vs => pairwise_insertByDate (sortByDateDesc_sorted vs)

theorem filter_insertByDate (k : Line) (v : Version) :
    ∀ l : List Version,
      (insertByDate v l).filter (fun x => decide (x.date_published = k)) =
        if v.date_published = k
        then v :: l.filter (fun x => decide (x.date_published = k))
        else l.filter (fun x => decide (x.date_published = k))
  | [] => by
    by_cases h : v.date_published = k <;> simp [insertByDate, h]
  | w :: ws => by
    by_cases hvw : strLt v.date_published w.date_published = true
    · simp only [insertByDate, hvw, if_pos]
      by_cases hw : w.date_published = k
      · by_cases hv : v.date_published = k
        · exfalso
          rw [hv, hw, strLt_irrefl] at hvw
          exact absurd hvw (by simp)
        · simp [List.filter_cons, filter_insertByDate k v ws, hv, hw]
      · by_cases hv : v.date_published = k <;>
          simp [List.filter_cons, filter_insertByDate k v ws, hv, hw]
    · simp only [insertByDate, hvw, if_neg, not_false_eq_true]
      by_cases hv : v.date_published = k <;> simp [List.filter_cons, hv]

theorem sortByDateDesc_filter_stable :
    ∀ (l : List Version) (k : Line),
      (sortByDateDesc l).filter (fun v => decide (v.date_published = k)) =
        l.filter (fun v => decide (v.date_published = k))
  | [], _ => rfl
  | v :: vs, k => by
    by_cases hv : v.date_published = k <;>
      simp [sortByDateDesc, filter_insertByDate k v (sortByDateDesc vs),
        sortByDateDesc_filter_stable vs k, List.filter_cons, hv]

/-! ### Helper lemmas: the severity walk -/

theorem walkParts_all_eq :
    ∀ (cs ls : List Line) (i0 : Nat),
      (∀ i, i < min cs.length ls.length → cs.getD i [] = ls.getD i []) →
      walkParts cs ls i0 = Color.green
  | [], ls, i0, _ => by cases ls <;> rfl
  | _ :: _, [], _, _ => rfl
  | c :: cs, l :: ls, i0, h => by
    have h0 : c = l := by
      have := h 0 (Nat.lt_min.mpr ⟨Nat.succ_pos _, Nat.succ_pos _⟩)
      simpa using this
    subst h0
    have hrec := walkParts_all_eq cs ls (i0 + 1) (fun i hi => by
      have := h (i + 1) (by
        rw [Nat.lt_min] at hi ⊢
        simpa [Nat.succ_lt_succ_iff] using hi)
      simpa using this)
    simp [walkParts, hrec]

theorem walkParts_first_diff :
    ∀ (cs ls : List Line) (i i0 : Nat), i < min cs.length ls.length →
      (∀ k, k < i → cs.getD k [] = ls.getD k []) →
      cs.getD i [] ≠ ls.getD i [] →
      walkParts cs ls i0 = classifyIdx (i0 + i)
  | [], ls, i, i0, hlt, _, _ => by simp [Nat.lt_min] at hlt
  | _ :: _, [], i, i0, hlt, _, _ => by simp [Nat.lt_min] at hlt
  | c :: cs, l :: ls, 0, i0, hlt, hpre, hdiff => by
    have : c ≠ l := by simpa using hdiff
    simp [walkParts, Ne.symm this]
  | c :: cs, l :: ls, i + 1, i0, hlt, hpre, hdiff => by
    have h0 : c = l := by
      have := hpre 0 (by omega)
      simpa using this
    subst h0
    have hrec := walkParts_first_diff cs ls i (i0 + 1)
      (by
        rw [Nat.lt_min] at hlt ⊢
        simpa [Nat.succ_lt_succ_iff] using hlt)
      (fun k hk => by
        have := hpre (k + 1) (by omega)
        simpa using this)
      (by simpa using hdiff)
    have harith : i0 + 1 + i = i0 + (i + 1) := by omega
    simp [walkParts, hrec, harith]

/-! ### Helper lemmas: the reconciliation loop and mod subsets -/

theorem subsetSkip_none (x : Line) : subsetSkip none x = false := rfl

theorem subsetSkip_some_nil (x : Line) : subsetSkip (some []) x = false := rfl

theorem check_mods_empty_subset (env : Env) (um : Bool)
    (mods : List DeclaredMod) :
    ∀ file, check_mods env um (some []) mods file =
      check_mods env um none mods file := by
  induction mods with
  | nil => intro file; rfl
  | cons m rest ih =>
    intro file
    simp only [check_mods, subsetSkip_some_nil, subsetSkip_none]
    by_cases h1 : m.type ≠ some (strOf "modrinth")
    · simp [h1, ih]
    · by_cases h2 : (! truthy m.id || ! truthy m.version) = true
      · simp [h1, h2, ih]
      · simp only [h1, h2]
        cases hmi : env.getModInfo (m.id.getD []) with
        | none => simp [hmi, ih]
        | some info => simp [hmi, ih]

theorem check_mods_subset_filter (env : Env) (um : Bool) (sel : List Line)
    (hsel : sel ≠ []) (mods : List DeclaredMod) :
    ∀ file, check_mods env um (some sel) mods file =
      check_mods env um none
        (mods.filter (fun m => decide (m.id.getD [] ∈ sel))) file := by
  induction mods with
  | nil => intro file; rfl
  | cons m rest ih =>
    intro file
    rw [List.filter_cons]
    by_cases hm : m.id.getD [] ∈ sel
    · have hskip : subsetSkip (some sel) (m.id.getD []) = false := by
        simp [subsetSkip, hm]
      have hf : decide (m.id.getD [] ∈ sel) = true := decide_eq_true_iff.mpr hm
      simp only [hf, if_pos]
      simp only [check_mods, hskip, subsetSkip_none]
      by_cases h1 : m.type ≠ some (strOf "modrinth")
      · simp [h1, ih]
      · by_cases h2 : (! truthy m.id || ! truthy m.version) = true
        · simp [h1, h2, ih]
        · simp only [h1, h2]
          cases hmi : env.getModInfo (m.id.getD []) with
          | none => simp [hmi, ih]
          | some info => simp [hmi, ih]
    · have hskip : subsetSkip (some sel) (m.id.getD []) = true := by
        have : sel.isEmpty = false := by
          cases sel with
          | nil => exact absurd rfl hsel
          | cons a l => rfl
        simp [subsetSkip, hm, this]
      have hf : decide (m.id.getD [] ∈ sel) = false := by simp [hm]
      simp only [hf, Bool.false_eq_true, if_neg, not_false_eq_true]
      simp only [check_mods, hskip]
      by_cases h1 : m.type ≠ some (strOf "modrinth")
      · simp [h1, ih]
      · by_cases h2 : (! truthy m.id || ! truthy m.version) = true
        · simp [h1, h2, ih]
        · simp [h1, h2, ih]

/-! ### Claim C1 -/

/-- Claim C1 counterexample.  The claim says an accepted update rewrites the
version field of the block whose id field equals the mod's DECLARED
identifier.  In the source, `_perform_update` re-fetches the project and
patches under its SLUG (lines 452–461).  Here the mod is declared as
`abc`, its registry slug is `fabric-api`, the prompt is accepted, and the
file contains the declared block (anchor at line 1, version at line 2) —
yet the patch performs zero updates and leaves the file unchanged, because
it searched for a block with id `fabric-api`. -/
theorem c1_counterexample :
    exEnvSlug.askUpdate (strOf "abc") = true ∧
    exEnvSlug.getModInfo (strOf "abc") =
      some ⟨strOf "abc", strOf "Abc Mod", some (strOf "fabric-api")⟩ ∧
    findAnchor exFileAbc (strOf "abc") = some 1 ∧
    findVersionIdx exFileAbc 1 = some 2 ∧
    perform_update exEnvSlug (strOf "abc") (strOf "AAA") exVerB exFileAbc =
      (0, exFileAbc) := by
  refine ⟨rfl, rfl, by decide, by decide, by decide⟩

/-- Claim C1 (amended): in update mode, when the user accepts the prompt,
`_perform_update` re-fetches the project record and rewrites the version
field of the block whose id field equals the FETCHED SLUG to `latest.id`;
the update counter is incremented exactly when that patch succeeds.  Only
when the declared identifier equals the slug is the declared entry's block
the patch target. -/
theorem c1_amended (env : Env) (modId cvid : Line) (latest : Version)
    (file : List Line) (info : ModInfo) (slug : Line)
    (hask : env.askUpdate modId = true)
    (hinfo : env.getModInfo modId = some info)
    (hslug : info.slug = some slug) :
    perform_update env modId cvid latest file =
      match update_version file slug latest.id with
      | some file2 => (1, file2)
      | none => (0, file) := by
  simp [perform_update, hask, hinfo, hslug]

/-- Witness for C1 (amended), at a mod whose slug equals its declared id. -/
theorem c1_witness :
    perform_update exEnvErr (strOf "m2") (strOf "AAA") exVerB exFileM2 =
      match update_version exFileM2 (strOf "m2") exVerB.id with
      | some file2 => (1, file2)
      | none => (0, exFileM2) :=
  c1_amended exEnvErr (strOf "m2") (strOf "AAA") exVerB exFileM2
    ⟨strOf "m2", strOf "T", some (strOf "m2")⟩ (strOf "m2") rfl rfl rfl

/-! ### Claim C2 -/

/-- Claim C2 counterexample.  The claim says `update_version` patches the
version field wherever it occurs INSIDE the anchored block and NEVER a
version field of a different block.  Both parts fail: the source scans a
fixed four-line window after the id line (line 160) with no block-boundary
check, so (a) on `exFileCross` the patch for mod `a` rewrites the version
line that belongs to the following `[[mods]]` block `b`, and (b) on
`exFileFar` a version field of the anchored block five lines after its id
line is not found at all. -/
theorem c2_counterexample :
    update_version exFileCross (strOf "a") (strOf "NEW") =
      some [strOf "[[mods]]\n", strOf "id = \"a\"\n", strOf "[[mods]]\n",
        strOf "id = \"b\"\n", strOf "version = \"NEW\"\n"] ∧
    findAnchor exFileCross (strOf "b") = some 3 ∧
    update_version exFileFar (strOf "a") (strOf "NEW") = none := by
  refine ⟨by decide, by decide, by decide⟩

/-- Claim C2 (amended): whenever `update_version` rewrites, it anchors on
the first line equal to `id = "<modId>"` inside a `[[mods]]` section
(exact match), and patches the FIRST line whose stripped text starts with
`version = ` among the at most four lines following the anchor — never a
line at or before the anchor, and never a second occurrence — but that
window is not block-scoped and does not reach past four lines. -/
theorem c2_amended {lines : List Line} {modId nv : Line} {out : List Line}
    (h : update_version lines modId nv = some out) :
    ∃ i j, findAnchor lines modId = some i ∧ i + 1 ≤ j ∧
      j < min (i + 5) lines.length ∧
      isVersionAssign (pyStrip (lines.getD j [])) = true ∧
      (∀ k, i + 1 ≤ k → k < j →
        isVersionAssign (pyStrip (lines.getD k [])) = false) ∧
      out = lines.set j (mkVersionLine (lines.getD j []) nv) :=
  update_version_spec h

/-- Witness for C2 (amended) on a well-formed single-block file. -/
theorem c2_witness :
    ∃ i j, findAnchor exFileGood (strOf "a") = some i ∧ i + 1 ≤ j ∧
      j < min (i + 5) exFileGood.length ∧
      isVersionAssign (pyStrip (exFileGood.getD j [])) = true ∧
      (∀ k, i + 1 ≤ k → k < j →
        isVersionAssign (pyStrip (exFileGood.getD k [])) = false) ∧
      [strOf "[[mods]]\n", strOf "  id = \"a\"\n",
          strOf "  version = \"NEW\"\n"] =
        exFileGood.set j (mkVersionLine (exFileGood.getD j []) (strOf "NEW")) :=
  c2_amended (by decide)

/-! ### Claim C3 -/

/-- Claim C3 counterexample.  The claim says a successful patch changes
ONLY the quoted value, preserving every other byte of the version line
(spacing, trailing comments).  The source rebuilds the whole line as
`indent + version = "<new>" + newline` (line 166): on `exFileComment` the
trailing ` # keep me` is discarded, so the patched line differs from the
line with only its value span replaced. -/
theorem c3_counterexample :
    update_version exFileComment (strOf "a") (strOf "BBB") =
      some [strOf "[[mods]]\n", strOf "id = \"a\"\n",
        strOf "version = \"BBB\"\n"] ∧
    strOf "version = \"BBB\"\n" ≠ strOf "version = \"BBB\"  # keep me\n" := by
  refine ⟨by decide, by decide⟩

/-- Claim C3 (amended): a successful patch changes exactly one line — the
targeted version line — which is rebuilt as its original indentation
followed by `version = "<new>"` and a newline, discarding any bytes that
followed the quoted value on that line; every other line of the file is
byte-for-byte unchanged. -/
theorem c3_amended {lines : List Line} {modId nv : Line} {out : List Line}
    (h : update_version lines modId nv = some out) :
    ∃ j, j < lines.length ∧
      isVersionAssign (pyStrip (lines.getD j [])) = true ∧
      out = lines.set j
        ((lines.getD j []).take
            ((subIndex (strOf "version") (lines.getD j [])).getD 0)
          ++ strOf "version = \"" ++ nv ++ strOf "\"" ++ ['\n']) ∧
      (∀ k, k ≠ j → out.getD k [] = lines.getD k []) := by
  rcases update_version_spec h with ⟨i, j, _, _, hj, hv, _, hout⟩
  refine ⟨j, ?_, hv, ?_, fun k hk => ?_⟩
  · have := Nat.min_le_right (i + 5) lines.length
    omega
  · rw [hout]; rfl
  · rw [hout, getD_set_ne (Ne.symm hk)]

/-- Witness for C3 (amended) on the trailing-comment file. -/
theorem c3_witness :
    ∃ j, j < exFileComment.length ∧
      isVersionAssign (pyStrip (exFileComment.getD j [])) = true ∧
      [strOf "[[mods]]\n", strOf "id = \"a\"\n",
          strOf "version = \"BBB\"\n"] =
        exFileComment.set j
          ((exFileComment.getD j []).take
              ((subIndex (strOf "version") (exFileComment.getD j [])).getD 0)
            ++ strOf "version = \"" ++ strOf "BBB" ++ strOf "\"" ++ ['\n']) ∧
      (∀ k, k ≠ j →
        ([strOf "[[mods]]\n", strOf "id = \"a\"\n",
            strOf "version = \"BBB\"\n"] : List Line).getD k [] =
          exFileComment.getD k []) :=
  @c3_amended exFileComment (strOf "a") (strOf "BBB")
    [strOf "[[mods]]\n", strOf "id = \"a\"\n", strOf "version = \"BBB\"\n"]
    (by decide)

/-! ### Claim C7 -/

/-- Claim C7 (confirmed): when no matching block or version field is found,
`update_version` reports failure and performs no write — the file is
byte-for-byte unchanged; and the operation is atomic: on success exactly
one line, a version-field line, is rewritten, everything else untouched. -/
theorem c7_atomic (file : List Line) (modId nv : Line) :
    ((update_version_file file modId nv).1 = false →
      (update_version_file file modId nv).2 = file) ∧
    ((update_version_file file modId nv).1 = true →
      ∃ j, j < file.length ∧
        isVersionAssign (pyStrip (file.getD j [])) = true ∧
        (update_version_file file modId nv).2 =
          file.set j (mkVersionLine (file.getD j []) nv) ∧
        ∀ k, k ≠ j →
          (update_version_file file modId nv).2.getD k [] =
            file.getD k []) := by
  unfold update_version_file
  cases h : update_version file modId nv with
  | none => simp
  | some out =>
    simp only
    refine ⟨fun hfalse => absurd hfalse (by simp), fun _ => ?_⟩
    rcases update_version_spec h with ⟨i, j, _, _, hj, hv, _, hout⟩
    have hjlen : j < file.length := by
      have := Nat.min_le_right (i + 5) file.length
      omega
    exact ⟨j, hjlen, hv, hout,
      fun k hk => by rw [hout, getD_set_ne (Ne.symm hk)]⟩

/-- Witness for C7: a lookup under an identifier that is declared nowhere
fails and leaves the file unchanged. -/
theorem c7_witness :
    (update_version_file exFileGood (strOf "zz") (strOf "NEW")).2 =
      exFileGood :=
  (c7_atomic exFileGood (strOf "zz") (strOf "NEW")).1 (by decide)

/-! ### Claim C4 -/

/-- Claim C4 (confirmed): for a non-empty filtered list, the decision is
`needs_update = (no filtered entry has the declared version id) OR (the
first filtered entry's id differs from it)`; when `needs_update` is false
the mod is reported up to date and nothing is mutated (no update counted,
file returned unchanged). -/
theorem c4_needs_update (env : Env) (info : ModInfo) (latest : Version)
    (rest : List Version) (cvid : Line) (um : Bool) (file : List Line) :
    ((display_mod_status env info (latest :: rest) cvid um file).2.1 = true ↔
      ((¬ ∃ v ∈ latest :: rest, v.id = cvid) ∨ latest.id ≠ cvid)) ∧
    ((display_mod_status env info (latest :: rest) cvid um file).2.1 =
        false →
      display_mod_status env info (latest :: rest) cvid um file =
        ([Event.statusUpToDate info.id], false, 0, file)) := by
  have hcore : (display_mod_status env info (latest :: rest) cvid um
      file).2.1 =
      (((latest :: rest).find? (fun v => decide (v.id = cvid))).isNone ||
        decide (latest.id ≠ cvid)) := by
    simp only [display_mod_status]
    cases hb : (((latest :: rest).find? (fun v => decide (v.id =
        cvid))).isNone || decide (latest.id ≠ cvid)) <;> simp [hb]
  constructor
  · rw [hcore]
    constructor
    · intro h
      rcases Bool.or_eq_true_iff.mp h with h | h
      · left
        have hnone := Option.isNone_iff_eq_none.mp h
        have hall := List.find?_eq_none.mp hnone
        rintro ⟨v, hv, hid⟩
        have hv' := hall v hv
        simp only [decide_eq_true_iff] at hv'
        exact hv' hid
      · exact Or.inr (by simpa using h)
    · intro h
      rcases h with h | h
      · have hnone : (latest :: rest).find? (fun v => decide (v.id = cvid))
            = none :=
          List.find?_eq_none.mpr (fun v hv => by
            simp only [decide_eq_true_iff]
            exact fun he => h ⟨v, hv, he⟩)
        simp [hnone]
      · simp [h]
  · intro hfalse
    rw [hcore] at hfalse
    simp only [display_mod_status]
    cases hb : (((latest :: rest).find? (fun v => decide (v.id =
        cvid))).isNone || decide (latest.id ≠ cvid)) with
    | true => rw [hb] at hfalse; exact absurd hfalse (by simp)
    | false => simp [hb]

/-- Witness for C4: with latest id `BBB` and declared id `AAA`, the status
is "needs update". -/
theorem c4_witness :
    (display_mod_status exEnvErr ⟨strOf "m2", strOf "T", some (strOf "m2")⟩
      (exVerB :: [exVerA]) (strOf "AAA") false exFileM2).2.1 = true :=
  (c4_needs_update exEnvErr ⟨strOf "m2", strOf "T", some (strOf "m2")⟩
    exVerB [exVerA] (strOf "AAA") false exFileM2).1.mpr
    (Or.inr (by decide))

/-! ### Claim C5 -/

/-- Claim C5 counterexample.  The claim says loader matching is
case-insensitive on BOTH sides (target lower-cased too).  In
`_filter_versions` only the record's loaders are lower-cased; the target
is compared as given (line 250).  With target loader `FABRIC` and a record
advertising `Fabric`, the claim's both-sides-lower-cased predicate holds,
and the game version matches exactly — yet the filter excludes the
record. -/
theorem c5_counterexample :
    filter_versions [exVerCase] (strOf "1.20.1") (strOf "FABRIC") = [] ∧
    lowerLine (strOf "FABRIC") ∈ exVerCase.loaders.map lowerLine ∧
    strOf "1.20.1" ∈ exVerCase.game_versions := by
  refine ⟨by decide, by decide, by decide⟩

/-- Claim C5 (amended): the filter includes a record exactly when the
target loader AS GIVEN (not lower-cased) appears among the record's
loaders after each of THEM is lower-cased — case-insensitive on the
record side only; `main` lower-cases the target once at startup — and the
target game version appears in the record's `game_versions` by exact
string match with no normalization. -/
theorem c5_amended (versions : List Version) (mc ld : Line) (v : Version) :
    v ∈ filter_versions versions mc ld ↔
      v ∈ versions ∧ ld ∈ v.loaders.map lowerLine ∧
        mc ∈ v.game_versions := by
  simp [filter_versions, List.mem_filter, and_assoc]

/-! ### Claim C6 -/

/-- Claim C6 (confirmed): the filter-and-sort output of
`get_mod_versions` is a permutation of the filtered sublist of the input
(so a subset of the input records), ordered non-increasing by
`date_published` compared as opaque strings, and stable — records with
equal timestamps keep the input's relative order; empty input or no
matches yields empty output. -/
theorem c6_filter_sort (versions : List Version) (mc ld : Line) :
    (sortByDateDesc (filter_versions versions mc ld)).Perm
        (filter_versions versions mc ld) ∧
    (∀ v ∈ sortByDateDesc (filter_versions versions mc ld),
      v ∈ versions) ∧
    (sortByDateDesc (filter_versions versions mc ld)).Pairwise
      (fun a b => strLt a.date_published b.date_published = false) ∧
    (∀ k, (sortByDateDesc (filter_versions versions mc ld)).filter
        (fun v => decide (v.date_published = k)) =
      (filter_versions versions mc ld).filter
        (fun v => decide (v.date_published = k))) ∧
    (versions = [] → sortByDateDesc (filter_versions versions mc ld) = []) ∧
    (filter_versions versions mc ld = [] →
      sortByDateDesc (filter_versions versions mc ld) = []) := by
  refine ⟨sortByDateDesc_perm _, ?_, sortByDateDesc_sorted _,
    fun k => sortByDateDesc_filter_stable _ k, ?_, ?_⟩
  · intro v hv
    have hmem := (sortByDateDesc_perm
      (filter_versions versions mc ld)).mem_iff.mp hv
    exact (List.mem_filter.mp hmem).1
  · rintro rfl
    simp [sortByDateDesc, filter_versions]
  · intro h
    rw [h]
    simp [sortByDateDesc]

/-- Witness for C6: the empty input gives empty output. -/
theorem c6_witness :
    sortByDateDesc (filter_versions [] (strOf "1.20.1") (strOf "fabric")) =
      [] :=
  (c6_filter_sort [] (strOf "1.20.1") (strOf "fabric")).2.2.2.2.1 rfl

/-! ### Claim C8 -/

/-- Claim C8 counterexample.  The claim says a fetch error while retrieving
a mod's VERSION LIST skips the mod with a status distinct from "no
compatible version".  In the source, `get_mod_versions` prints the error
and returns `[]` (lines 239–241), and `check_mods` then feeds that empty
list to `display_mod_status`, which reports "No compatible version found"
(line 356).  Here `m1`'s version fetch fails: the run emits the error AND
the "no compatible version" status for `m1` — the mod is processed, not
skipped, and the status is exactly the legitimate-empty one — and `m2` is
still processed and updated. -/
theorem c8_counterexample :
    (check_mods exEnvErr true none [exMod1, exMod2] exFileM2).1 =
      [Event.errorFetchVersions (strOf "m1"),
        Event.statusNoCompatible (strOf "m1"),
        Event.statusUpdateAvailable (strOf "m2")] ∧
    (check_mods exEnvErr true none [exMod1, exMod2] exFileM2).2.2.1 = 1 := by
  refine ⟨by decide, by decide⟩

/-- Claim C8 (amended): a fetch error for the PROJECT record is reported to
the error channel and skips the mod; a fetch error for the VERSION LIST is
reported to the error channel and then treated as an empty version list,
so the mod is reported with the same "no compatible version" status as a
legitimately empty filter rather than being skipped.  In both cases the
mod contributes no update and no file change, and the remaining mods of
the batch are processed as usual. -/
theorem c8_amended (env : Env) (um : Bool) (sel : Option (List Line))
    (m : DeclaredMod) (rest : List DeclaredMod) (file : List Line)
    (modId cvid : Line)
    (htype : m.type = some (strOf "modrinth"))
    (hid : m.id = some modId) (hne : modId ≠ [])
    (hver : m.version = some cvid) (hvne : cvid ≠ [])
    (hskip : subsetSkip sel modId = false) :
    (env.getModInfo modId = none →
      check_mods env um sel (m :: rest) file =
        (Event.errorFetchProject modId ::
            (check_mods env um sel rest file).1,
          (check_mods env um sel rest file).2)) ∧
    (∀ info, env.getModInfo modId = some info →
      env.fetchVersions modId = none →
      check_mods env um sel (m :: rest) file =
        (Event.errorFetchVersions modId ::
            Event.statusNoCompatible info.id ::
            (check_mods env um sel rest file).1,
          (check_mods env um sel rest file).2)) := by
  have htype' : ¬ m.type ≠ some (strOf "modrinth") := by simp [htype]
  have htruthy : (! truthy m.id || ! truthy m.version) = false := by
    rw [hid, hver]
    simp [truthy, List.isEmpty_iff, hne, hvne]
  have hgetd : m.id.getD [] = modId := by rw [hid]; rfl
  constructor
  · intro hnone
    simp only [check_mods, htype', if_false, htruthy, hgetd, hskip,
      Bool.false_eq_true, if_neg, not_false_eq_true, hnone]
  · intro info hinfo hfetch
    simp only [check_mods, htype', if_false, htruthy, hgetd, hskip,
      Bool.false_eq_true, if_neg, not_false_eq_true, hinfo]
    simp [get_mod_versions, hfetch, display_mod_status]

/-- Witness for C8 (amended): the version-list fetch for `m1` fails. -/
theorem c8_witness :
    check_mods exEnvErr false none [exMod1] exFileM2 =
      (Event.errorFetchVersions (strOf "m1") ::
          Event.statusNoCompatible (strOf "m1") ::
          (check_mods exEnvErr false none [] exFileM2).1,
        (check_mods exEnvErr false none [] exFileM2).2) :=
  (c8_amended exEnvErr false none exMod1 [] exFileM2 (strOf "m1")
      (strOf "AAA") rfl rfl (by decide) rfl (by decide) rfl).2
    ⟨strOf "m1", strOf "T", some (strOf "m1")⟩ rfl (by decide)

/-! ### Claim C9 -/

/-- Claim C9 (confirmed): `get_version_color` strips build/pre-release
suffixes by taking the text before the first `+` and then before the
first `-`, splits on `.`, and walks components pairwise over the common
length: at the first differing component, index 0 is major (red), index 1
minor (yellow), index 2 or more patch (green); if all compared components
are equal — including suffix-only or length-only differences — the result
is patch (green; the source's `try/except` never fires since the loop
performs only string operations).  The four spec examples evaluate as
stated. -/
theorem c9_severity :
    get_version_color (strOf "1.2.3") (strOf "1.3.0") = Color.yellow ∧
    get_version_color (strOf "1.2.3") (strOf "2.0.0") = Color.red ∧
    get_version_color (strOf "1.2.3") (strOf "1.2.4") = Color.green ∧
    get_version_color (strOf "1.2.3+build1") (strOf "1.2.3+build2") =
      Color.green ∧
    (∀ cv lv,
      (∀ i, i < min (versionParts cv).length (versionParts lv).length →
        (versionParts cv).getD i [] = (versionParts lv).getD i []) →
      get_version_color cv lv = Color.green) ∧
    (∀ cv lv i,
      i < min (versionParts cv).length (versionParts lv).length →
      (∀ k, k < i →
        (versionParts cv).getD k [] = (versionParts lv).getD k []) →
      (versionParts cv).getD i [] ≠ (versionParts lv).getD i [] →
      get_version_color cv lv = classifyIdx i) := by
  refine ⟨by decide, by decide, by decide, by decide, ?_, ?_⟩
  · intro cv lv h
    exact walkParts_all_eq (versionParts cv) (versionParts lv) 0 h
  · intro cv lv i hlt hpre hdiff
    have h := walkParts_first_diff (versionParts cv) (versionParts lv) i 0
      hlt hpre hdiff
    simpa using h

/-- Witness for C9: a difference at component index 0 is major (red). -/
theorem c9_witness :
    get_version_color (strOf "1.2") (strOf "9.9") = classifyIdx 0 :=
  c9_severity.2.2.2.2.2 (strOf "1.2") (strOf "9.9") 0 (by decide)
    (fun k hk => absurd hk (by omega)) (by decide)

/-! ### Claim C10 -/

/-- Claim C10 (confirmed): `check_mods` given an empty requested subset
behaves exactly as if no subset had been given (the Python guard
`specific_mods and mod_id not in specific_mods` is falsy for `[]`), while
for a non-empty subset the run equals a no-subset run over just the
declared mods whose id is in the subset. -/
theorem c10_empty_subset (env : Env) (um : Bool) (mods : List DeclaredMod)
    (file : List Line) :
    check_mods env um (some []) mods file =
      check_mods env um none mods file ∧
    (∀ sel : List Line, sel ≠ [] →
      check_mods env um (some sel) mods file =
        check_mods env um none
          (mods.filter (fun m => decide (m.id.getD [] ∈ sel))) file) :=
  ⟨check_mods_empty_subset env um mods file,
    fun sel hsel => check_mods_subset_filter env um sel hsel mods file⟩

/-- Witness for C10: requesting only `m2` skips `m1`. -/
theorem c10_witness :
    check_mods exEnvErr true (some [strOf "m2"]) [exMod1, exMod2]
        exFileM2 =
      check_mods exEnvErr true none
        ([exMod1, exMod2].filter
          (fun m => decide (m.id.getD [] ∈ [strOf "m2"]))) exFileM2 :=
  (c10_empty_subset exEnvErr true [exMod1, exMod2] exFileM2).2
    [strOf "m2"] (by decide)

end ModChecker
